import Mathlib

/-!
Verification of the ProjectorWithCamera repository against its specification.

The development shallow-embeds the C++ sources:
* `common/ProjectorWithCamera.cpp` — fringe generation, camera parameter
  configuration, the frame-delivery callback and the acquisition loop;
* `common/CameraTest.cpp` — the optional camera parameter clamping and the
  test harness frame callback.

Machine integers (`int`) are embedded as `ℤ`, C `double` values as `ℝ` (for
the trigonometric fringe computation) or `ℚ` (for plain threshold tests and
millisecond conversions, where exactness is irrelevant), and the vendor SDK
is an explicit environment of success flags and reported values.  The C
literal `3.14159265358979323846` is π to 21 significant digits; the embedding
idealizes IEEE double arithmetic over ℝ and reads that constant as π exactly.
The OpenCV RNG is modelled as an explicit stream `noise : ℕ → ℝ` of
successive Gaussian draws consumed in program order.
-/

namespace ProjectorWithCamera

/-- Byte clamp from `generatePhaseShiftFringeImages`:
`if (g < 0) g = 0; if (g > 255) g = 255;` (the source applies the same two
tests to `intensity`, `offset` and to the rounded gray value). -/
def clampByte (g : ℤ) : ℤ := if g < 0 then 0 else if 255 < g then 255 else g

/-- C `std::lround`: round half away from zero, expressed through Mathlib's
`round` (round half up), which agrees with it on nonnegative arguments. -/
noncomputable def lround (v : ℝ) : ℤ := if v < 0 then -round (-v) else round v

/-- The source constant `twoPi = 2.0 * 3.14159265358979323846`, idealized. -/
noncomputable def twoPi : ℝ := 2 * Real.pi

/-- A single `CV_8UC1` image of `generatePhaseShiftFringeImages`: the matrix
dimensions plus the pixel contents as a function of row `y` and column `x`. -/
structure FringeImage where
  width : ℤ
  height : ℤ
  pixel : ℕ → ℕ → ℤ

/-- Pixel value of the vertical-fringe loop of `generatePhaseShiftFringeImages`:
`t = x / width`, `gray = offset + intensity * sin(twoPi * frequency * t + p * (twoPi / steps))`,
plus one Gaussian draw per pixel when `noiseLevel > 0` (draws are consumed in
loop order `p`, `y`, `x`), then `lround` and the byte clamp. -/
noncomputable def verticalPixel (width height frequency intensity offset : ℤ)
    (noiseLevel : ℝ) (noise : ℕ → ℝ) (steps p y x : ℕ) : ℤ :=
  let t : ℝ := (x : ℝ) / (width : ℝ)
  let grayValue : ℝ :=
    (offset : ℝ) + (intensity : ℝ) *
      Real.sin (twoPi * (frequency : ℝ) * t + (p : ℝ) * (twoPi / (steps : ℝ)))
  let noisy : ℝ :=
    if 0 < noiseLevel then
      grayValue + noise (p * (height.toNat * width.toNat) + y * width.toNat + x)
    else grayValue
  clampByte (lround noisy)

/-- Row value of the horizontal-fringe loop: `t = y / height`, one value
(and, when `noiseLevel > 0`, one Gaussian draw) per row, `memset` across the
row.  The horizontal loop runs after the vertical one, so its draws start at
stream position `steps * height * width`, one per row in order `p`, `y`. -/
noncomputable def horizontalPixel (width height frequency intensity offset : ℤ)
    (noiseLevel : ℝ) (noise : ℕ → ℝ) (steps p y : ℕ) : ℤ :=
  let t : ℝ := (y : ℝ) / (height : ℝ)
  let s : ℝ := Real.sin (twoPi * (frequency : ℝ) * t + (p : ℝ) * (twoPi / (steps : ℝ)))
  let lineGray : ℝ := (offset : ℝ) + (intensity : ℝ) * s
  let noisy : ℝ :=
    if 0 < noiseLevel then
      lineGray + noise (steps * (height.toNat * width.toNat) + p * height.toNat + y)
    else lineGray
  clampByte (lround noisy)

/-- One image of the vertical loop (`cv::Mat img(height, width, CV_8UC1)`
filled per pixel). -/
noncomputable def verticalImage (width height frequency intensity offset : ℤ)
    (noiseLevel : ℝ) (noise : ℕ → ℝ) (steps p : ℕ) : FringeImage :=
  ⟨width, height,
    fun y x => verticalPixel width height frequency intensity offset noiseLevel noise steps p y x⟩

/-- One image of the horizontal loop: every pixel of row `y` receives the
single row value (`std::memset(row, v, width)`), so `pixel` ignores `x`. -/
noncomputable def horizontalImage (width height frequency intensity offset : ℤ)
    (noiseLevel : ℝ) (noise : ℕ → ℝ) (steps p : ℕ) : FringeImage :=
  ⟨width, height,
    fun y _x => horizontalPixel width height frequency intensity offset noiseLevel noise steps p y⟩

/-- `generatePhaseShiftFringeImages` from `common/ProjectorWithCamera.cpp`:
validation guard, clamping of `intensity` and `offset` to `[0,255]`, then the
vertical loop (N images) followed by the horizontal loop (N images). -/
noncomputable def generatePhaseShiftFringeImages (width height frequency intensity offset : ℤ)
    (noiseLevel : ℝ) (noise : ℕ → ℝ) (steps : ℤ) : List FringeImage :=
  if width ≤ 0 ∨ height ≤ 0 ∨ frequency ≤ 0 ∨ steps ≤ 0 then []
  else
    (List.range steps.toNat).map
      (fun p => verticalImage width height frequency (clampByte intensity) (clampByte offset)
        noiseLevel noise steps.toNat p) ++
    (List.range steps.toNat).map
      (fun p => horizontalImage width height frequency (clampByte intensity) (clampByte offset)
        noiseLevel noise steps.toNat p)

theorem clampByte_nonneg (g : ℤ) : 0 ≤ clampByte g := by
  unfold clampByte; split_ifs <;> omega

theorem clampByte_le_255 (g : ℤ) : clampByte g ≤ 255 := by
  unfold clampByte; split_ifs <;> omega

theorem clampByte_of_mem {g : ℤ} (h0 : 0 ≤ g) (h1 : g ≤ 255) : clampByte g = g := by
  unfold clampByte; split_ifs <;> omega

theorem round_le_round_of_le {x y : ℝ} (h : x ≤ y) : round x ≤ round y := by
  rw [round_eq, round_eq]
  exact Int.floor_le_floor (by linarith)

theorem round_coe_255 : round ((255 : ℝ)) = 255 := by
  have h : ((255 : ℤ) : ℝ) = 255 := by norm_num
  rw [← h, round_intCast]

/-- Key bridge between the code's `clamp(lround v)` and the specification's
`round(clamp(v, 0, 255))`: the two agree on every real input. -/
theorem clampByte_lround (v : ℝ) : clampByte (lround v) = round (min (max v 0) 255) := by
  rcases lt_or_le v 0 with hv | hv
  · have hmax : max v 0 = 0 := max_eq_right hv.le
    have hrhs : round (min (max v 0) 255) = 0 := by
      rw [hmax, min_eq_left (by norm_num : (0:ℝ) ≤ 255), round_zero]
    have hneg : lround v = -round (-v) := if_pos hv
    have h0 : (0:ℤ) ≤ round (-v) := by
      have := round_le_round_of_le (x := 0) (y := -v) (by linarith)
      simpa using this
    have hle : lround v ≤ 0 := by omega
    rw [hrhs]
    unfold clampByte
    split_ifs <;> omega
  · have hlr : lround v = round v := if_neg (not_lt.mpr hv)
    have hmax : max v 0 = v := max_eq_left hv
    rcases le_or_lt v 255 with h255 | h255
    · have hmin : min (max v 0) 255 = v := by rw [hmax]; exact min_eq_left h255
      have hlo : (0:ℤ) ≤ round v := by
        have := round_le_round_of_le (x := 0) (y := v) hv
        simpa using this
      have hhi : round v ≤ 255 := by
        have := round_le_round_of_le (x := v) (y := 255) h255
        rwa [round_coe_255] at this
      rw [hmin, hlr]
      unfold clampByte
      split_ifs <;> omega
    · have hmin : min (max v 0) 255 = 255 := by rw [hmax]; exact min_eq_right h255.le
      have hhi : (255:ℤ) ≤ round v := by
        have := round_le_round_of_le (x := 255) (y := v) h255.le
        rwa [round_coe_255] at this
      rw [hmin, hlr, round_coe_255]
      unfold clampByte
      split_ifs <;> omega

theorem lround_intCast (n : ℤ) : lround ((n : ℝ)) = n := by
  unfold lround
  split_ifs with h
  · have hcast : (-(n:ℝ)) = ((-n : ℤ) : ℝ) := by push_cast; ring
    rw [hcast, round_intCast]; ring
  · exact round_intCast n

theorem generate_not_invalid {width height frequency steps : ℤ}
    (hw : 0 < width) (hh : 0 < height) (hf : 0 < frequency) (hs : 0 < steps) :
    ¬(width ≤ 0 ∨ height ≤ 0 ∨ frequency ≤ 0 ∨ steps ≤ 0) := by
  push_neg
  exact ⟨hw, hh, hf, hs⟩

theorem generate_length {width height frequency intensity offset : ℤ}
    {noiseLevel : ℝ} {noise : ℕ → ℝ} {steps : ℤ}
    (hw : 0 < width) (hh : 0 < height) (hf : 0 < frequency) (hs : 0 < steps) :
    (generatePhaseShiftFringeImages width height frequency intensity offset
      noiseLevel noise steps).length = 2 * steps.toNat := by
  unfold generatePhaseShiftFringeImages
  rw [if_neg (generate_not_invalid hw hh hf hs)]
  simp
  omega

theorem generate_getElem_vertical {width height frequency intensity offset : ℤ}
    {noiseLevel : ℝ} {noise : ℕ → ℝ} {steps : ℤ} {p : ℕ}
    (hw : 0 < width) (hh : 0 < height) (hf : 0 < frequency) (hs : 0 < steps)
    (hp : p < steps.toNat) :
    (generatePhaseShiftFringeImages width height frequency intensity offset
        noiseLevel noise steps)[p]? =
      some (verticalImage width height frequency (clampByte intensity) (clampByte offset)
        noiseLevel noise steps.toNat p) := by
  unfold generatePhaseShiftFringeImages
  rw [if_neg (generate_not_invalid hw hh hf hs)]
  rw [List.getElem?_append_left (by simpa using hp)]
  simp [List.getElem?_range, hp]

theorem generate_getElem_horizontal {width height frequency intensity offset : ℤ}
    {noiseLevel : ℝ} {noise : ℕ → ℝ} {steps : ℤ} {p : ℕ}
    (hw : 0 < width) (hh : 0 < height) (hf : 0 < frequency) (hs : 0 < steps)
    (hp : p < steps.toNat) :
    (generatePhaseShiftFringeImages width height frequency intensity offset
        noiseLevel noise steps)[steps.toNat + p]? =
      some (horizontalImage width height frequency (clampByte intensity) (clampByte offset)
        noiseLevel noise steps.toNat p) := by
  unfold generatePhaseShiftFringeImages
  rw [if_neg (generate_not_invalid hw hh hf hs)]
  rw [List.getElem?_append_right (by simp)]
  simp [List.getElem?_range, hp]

/-- C1: for every phase step `p ∈ [0,N)` and every pixel, with `noiseStd = 0`
the fringe gray value is
`round(clamp(offset + intensity·sin(2π·frequency·t + 2π·p/N), 0, 255))`
with `t = x/width` for the vertical patterns (entries p) and `t = y/height`
for the horizontal patterns (entries N+p) — the code computes
`clamp(lround(...))`, which coincides — and in particular for width=4,
height=2, frequency=1, intensity=100, offset=128, N=4 the vertical phase-0
row is `[128, 228, 128, 28]`. -/
theorem fringe_gray_formula :
    (∀ (width height frequency intensity offset steps : ℤ) (noise : ℕ → ℝ) (p y x : ℕ),
      0 < width → 0 < height → 0 < frequency → 0 < steps →
      0 ≤ intensity → intensity ≤ 255 → 0 ≤ offset → offset ≤ 255 →
      p < steps.toNat →
      ∃ img,
        (generatePhaseShiftFringeImages width height frequency intensity offset
          0 noise steps)[p]? = some img ∧
        img.pixel y x = round (min (max ((offset : ℝ) + (intensity : ℝ) *
          Real.sin (twoPi * (frequency : ℝ) * ((x : ℝ) / (width : ℝ)) +
            twoPi * (p : ℝ) / (steps : ℝ))) 0) 255)) ∧
    (∀ (width height frequency intensity offset steps : ℤ) (noise : ℕ → ℝ) (p y x : ℕ),
      0 < width → 0 < height → 0 < frequency → 0 < steps →
      0 ≤ intensity → intensity ≤ 255 → 0 ≤ offset → offset ≤ 255 →
      p < steps.toNat →
      ∃ img,
        (generatePhaseShiftFringeImages width height frequency intensity offset
          0 noise steps)[steps.toNat + p]? = some img ∧
        img.pixel y x = round (min (max ((offset : ℝ) + (intensity : ℝ) *
          Real.sin (twoPi * (frequency : ℝ) * ((y : ℝ) / (height : ℝ)) +
            twoPi * (p : ℝ) / (steps : ℝ))) 0) 255)) ∧
    (∃ img,
      (generatePhaseShiftFringeImages 4 2 1 100 128 0 (fun _ => 0) 4)[0]? = some img ∧
      img.pixel 0 0 = 128 ∧ img.pixel 0 1 = 228 ∧ img.pixel 0 2 = 128 ∧ img.pixel 0 3 = 28) := by
  refine ⟨?_, ?_, ?_⟩
  · intro width height frequency intensity offset steps noise p y x hw hh hf hs hi0 hi1 ho0 ho1 hp
    refine ⟨_, generate_getElem_vertical hw hh hf hs hp, ?_⟩
    simp only [verticalImage, verticalPixel]
    rw [clampByte_of_mem hi0 hi1, clampByte_of_mem ho0 ho1,
        if_neg (lt_irrefl (0 : ℝ)), clampByte_lround]
    have hsteps : ((steps.toNat : ℕ) : ℝ) = (steps : ℝ) := by
      exact_mod_cast Int.toNat_of_nonneg hs.le
    rw [hsteps]
    ring_nf
  · intro width height frequency intensity offset steps noise p y x hw hh hf hs hi0 hi1 ho0 ho1 hp
    refine ⟨_, generate_getElem_horizontal hw hh hf hs hp, ?_⟩
    simp only [horizontalImage, horizontalPixel]
    rw [clampByte_of_mem hi0 hi1, clampByte_of_mem ho0 ho1,
        if_neg (lt_irrefl (0 : ℝ)), clampByte_lround]
    have hsteps : ((steps.toNat : ℕ) : ℝ) = (steps : ℝ) := by
      exact_mod_cast Int.toNat_of_nonneg hs.le
    rw [hsteps]
    ring_nf
  · have h4 : ((4:ℤ).toNat : ℕ) = 4 := by decide
    refine ⟨_, generate_getElem_vertical (by decide) (by decide) (by decide) (by decide)
      (by decide), ?_, ?_, ?_, ?_⟩
    · simp only [verticalImage, verticalPixel, h4]
      rw [show clampByte 100 = 100 from by decide, show clampByte 128 = 128 from by decide,
          if_neg (lt_irrefl (0 : ℝ))]
      have harg : twoPi * ((1:ℤ) : ℝ) * (((0:ℕ) : ℝ) / ((4:ℤ) : ℝ)) +
          ((0:ℕ) : ℝ) * (twoPi / ((4:ℕ) : ℝ)) = 0 := by
        push_cast
        ring
      rw [harg, Real.sin_zero]
      have hv : ((128:ℤ) : ℝ) + ((100:ℤ) : ℝ) * 0 = ((128:ℤ) : ℝ) := by ring
      rw [hv, lround_intCast]
      decide
    · simp only [verticalImage, verticalPixel, h4]
      rw [show clampByte 100 = 100 from by decide, show clampByte 128 = 128 from by decide,
          if_neg (lt_irrefl (0 : ℝ))]
      have harg : twoPi * ((1:ℤ) : ℝ) * (((1:ℕ) : ℝ) / ((4:ℤ) : ℝ)) +
          ((0:ℕ) : ℝ) * (twoPi / ((4:ℕ) : ℝ)) = Real.pi / 2 := by
        unfold twoPi
        push_cast
        ring
      rw [harg, Real.sin_pi_div_two]
      have hv : ((128:ℤ) : ℝ) + ((100:ℤ) : ℝ) * 1 = ((228:ℤ) : ℝ) := by push_cast; ring
      rw [hv, lround_intCast]
      decide
    · simp only [verticalImage, verticalPixel, h4]
      rw [show clampByte 100 = 100 from by decide, show clampByte 128 = 128 from by decide,
          if_neg (lt_irrefl (0 : ℝ))]
      have harg : twoPi * ((1:ℤ) : ℝ) * (((2:ℕ) : ℝ) / ((4:ℤ) : ℝ)) +
          ((0:ℕ) : ℝ) * (twoPi / ((4:ℕ) : ℝ)) = Real.pi := by
        unfold twoPi
        push_cast
        ring
      rw [harg, Real.sin_pi]
      have hv : ((128:ℤ) : ℝ) + ((100:ℤ) : ℝ) * 0 = ((128:ℤ) : ℝ) := by ring
      rw [hv, lround_intCast]
      decide
    · simp only [verticalImage, verticalPixel, h4]
      rw [show clampByte 100 = 100 from by decide, show clampByte 128 = 128 from by decide,
          if_neg (lt_irrefl (0 : ℝ))]
      have harg : twoPi * ((1:ℤ) : ℝ) * (((3:ℕ) : ℝ) / ((4:ℤ) : ℝ)) +
          ((0:ℕ) : ℝ) * (twoPi / ((4:ℕ) : ℝ)) = Real.pi + Real.pi / 2 := by
        unfold twoPi
        push_cast
        ring
      rw [harg, Real.sin_add, Real.sin_pi, Real.cos_pi, Real.sin_pi_div_two, Real.cos_pi_div_two]
      have hv : ((128:ℤ) : ℝ) + ((100:ℤ) : ℝ) * (0 * 0 + -1 * 1) = ((28:ℤ) : ℝ) := by
        push_cast
        ring
      rw [hv, lround_intCast]
      decide

/-- Witness for C1: both general formulas instantiated at the example
inputs — the vertical entry 0 at pixel (0,0) and the horizontal entry N+0
at pixel (0,0). -/
theorem fringe_gray_formula_check :
    (∃ img,
      (generatePhaseShiftFringeImages 4 2 1 100 128 0 (fun _ => 0) 4)[0]? = some img ∧
      img.pixel 0 0 = round (min (max (((128:ℤ) : ℝ) + ((100:ℤ) : ℝ) *
        Real.sin (twoPi * ((1:ℤ) : ℝ) * (((0:ℕ) : ℝ) / ((4:ℤ) : ℝ)) +
          twoPi * ((0:ℕ) : ℝ) / ((4:ℤ) : ℝ))) 0) 255)) ∧
    (∃ img,
      (generatePhaseShiftFringeImages 4 2 1 100 128 0 (fun _ => 0) 4)[(4:ℤ).toNat + 0]?
        = some img ∧
      img.pixel 0 0 = round (min (max (((128:ℤ) : ℝ) + ((100:ℤ) : ℝ) *
        Real.sin (twoPi * ((1:ℤ) : ℝ) * (((0:ℕ) : ℝ) / ((2:ℤ) : ℝ)) +
          twoPi * ((0:ℕ) : ℝ) / ((4:ℤ) : ℝ))) 0) 255)) :=
  ⟨fringe_gray_formula.1 4 2 1 100 128 4 (fun _ => 0) 0 0 0 (by decide) (by decide)
      (by decide) (by decide) (by decide) (by decide) (by decide) (by decide) (by decide),
    fringe_gray_formula.2.1 4 2 1 100 128 4 (fun _ => 0) 0 0 0 (by decide) (by decide)
      (by decide) (by decide) (by decide) (by decide) (by decide) (by decide) (by decide)⟩

/-- C2: for valid inputs the generator returns exactly 2N images of size
width×height with 8-bit pixel values, the first N from the vertical loop
with phases `p·(2π/N)` for `p = 0..N-1` in order, the last N from the
horizontal loop. -/
theorem fringe_output_structure :
    ∀ (width height frequency intensity offset steps : ℤ) (noiseLevel : ℝ) (noise : ℕ → ℝ),
      0 < width → 0 < height → 0 < frequency → 1 ≤ steps →
      (generatePhaseShiftFringeImages width height frequency intensity offset
        noiseLevel noise steps).length = 2 * steps.toNat ∧
      (∀ img ∈ generatePhaseShiftFringeImages width height frequency intensity offset
          noiseLevel noise steps,
        img.width = width ∧ img.height = height ∧
        ∀ y x, 0 ≤ img.pixel y x ∧ img.pixel y x ≤ 255) ∧
      (∀ p, p < steps.toNat →
        (generatePhaseShiftFringeImages width height frequency intensity offset
            noiseLevel noise steps)[p]? =
          some (verticalImage width height frequency (clampByte intensity) (clampByte offset)
            noiseLevel noise steps.toNat p)) ∧
      (∀ p, p < steps.toNat →
        (generatePhaseShiftFringeImages width height frequency intensity offset
            noiseLevel noise steps)[steps.toNat + p]? =
          some (horizontalImage width height frequency (clampByte intensity) (clampByte offset)
            noiseLevel noise steps.toNat p)) := by
  intro width height frequency intensity offset steps noiseLevel noise hw hh hf hs
  refine ⟨generate_length hw hh hf hs, ?_, ?_, ?_⟩
  · intro img himg
    unfold generatePhaseShiftFringeImages at himg
    rw [if_neg (generate_not_invalid hw hh hf hs)] at himg
    rcases List.mem_append.mp himg with hmem | hmem
    · rcases List.mem_map.mp hmem with ⟨p, _, rfl⟩
      refine ⟨rfl, rfl, ?_⟩
      intro y x
      simp only [verticalImage, verticalPixel]
      exact ⟨clampByte_nonneg _, clampByte_le_255 _⟩
    · rcases List.mem_map.mp hmem with ⟨p, _, rfl⟩
      refine ⟨rfl, rfl, ?_⟩
      intro y x
      simp only [horizontalImage, horizontalPixel]
      exact ⟨clampByte_nonneg _, clampByte_le_255 _⟩
  · intro p hp
    exact generate_getElem_vertical hw hh hf hs hp
  · intro p hp
    exact generate_getElem_horizontal hw hh hf hs hp

/-- Witness for C2: the size and shape facts at the demo parameters. -/
theorem fringe_output_structure_check :
    (generatePhaseShiftFringeImages 1920 1080 32 100 128 0 (fun _ => 0) 4).length
      = 2 * (4:ℤ).toNat :=
  (fringe_output_structure 1920 1080 32 100 128 4 0 (fun _ => 0)
    (by decide) (by decide) (by decide) (by decide)).1

/-- C8: any non-positive width, height, frequency or step count makes the
generator return the empty list (the code's representation of a validation
failure): no images are produced. -/
theorem invalid_params_empty_result :
    ∀ (width height frequency intensity offset steps : ℤ) (noiseLevel : ℝ) (noise : ℕ → ℝ),
      width ≤ 0 ∨ height ≤ 0 ∨ frequency ≤ 0 ∨ steps ≤ 0 →
      generatePhaseShiftFringeImages width height frequency intensity offset
        noiseLevel noise steps = [] := by
  intro width height frequency intensity offset steps noiseLevel noise hbad
  unfold generatePhaseShiftFringeImages
  rw [if_pos hbad]

/-- Witness for C8: zero width yields no images. -/
theorem invalid_params_empty_result_check :
    generatePhaseShiftFringeImages 0 1080 32 100 128 0 (fun _ => 0) 4 = [] :=
  invalid_params_empty_result 0 1080 32 100 128 4 0 (fun _ => 0) (Or.inl (by decide))

/-- C10: every horizontal pattern has all pixels of a row equal, for every
noise level (including positive ones): the gray value and the Gaussian draw
are computed once per row — the draw index depends only on the pattern and
the row — and replicated across the row by `memset`. -/
theorem horizontal_row_constant :
    ∀ (width height frequency intensity offset steps : ℤ) (noiseLevel : ℝ) (noise : ℕ → ℝ)
      (p y x1 x2 : ℕ),
      0 < width → 0 < height → 0 < frequency → 0 < steps → p < steps.toNat →
      ∃ img,
        (generatePhaseShiftFringeImages width height frequency intensity offset
          noiseLevel noise steps)[steps.toNat + p]? = some img ∧
        img.pixel y x1 = img.pixel y x2 ∧
        img.pixel y x1 = clampByte (lround
          (((clampByte offset : ℤ) : ℝ) + ((clampByte intensity : ℤ) : ℝ) *
            Real.sin (twoPi * (frequency : ℝ) * ((y : ℝ) / (height : ℝ)) +
              (p : ℝ) * (twoPi / ((steps.toNat : ℕ) : ℝ))) +
            (if 0 < noiseLevel then
              noise (steps.toNat * (height.toNat * width.toNat) + p * height.toNat + y)
            else 0))) := by
  intro width height frequency intensity offset steps noiseLevel noise p y x1 x2 hw hh hf hs hp
  refine ⟨_, generate_getElem_horizontal hw hh hf hs hp, rfl, ?_⟩
  simp only [horizontalImage, horizontalPixel]
  congr 1
  congr 1
  split_ifs with hc <;> ring

/-- Witness for C10: with positive noise, two pixels of a horizontal row agree. -/
theorem horizontal_row_constant_check :
    ∃ img,
      (generatePhaseShiftFringeImages 4 2 1 100 128 1 (fun k => (k : ℝ)) 4)[(4:ℤ).toNat + 2]?
        = some img ∧ img.pixel 1 0 = img.pixel 1 3 := by
  obtain ⟨img, h1, h2, _⟩ := horizontal_row_constant 4 2 1 100 128 4 1 (fun k => (k : ℝ))
    2 1 0 3 (by decide) (by decide) (by decide) (by decide) (by decide)
  exact ⟨img, h1, h2⟩

/-- Camera parameter set of the `CameraParams` struct in
`common/ProjectorWithCamera.cpp` (floats embedded as ℚ). -/
structure CameraParams where
  exposureTimeUs : ℚ
  exposureAutoMode : Bool
  gainValue : ℚ
  gainAutoMode : Bool
  frameRate : ℚ
  triggerDelayUs : ℤ
  enableChunkData : Bool
  printCurrentParams : Bool

/-- Device responses (MV_OK = `true`) to the writes issued by
`configureCameraParams`. -/
structure DeviceResponses where
  setExposureTime : Bool
  setExposureAuto : Bool
  setGain : Bool
  setGainAuto : Bool
  setFrameRate : Bool
  setTriggerDelay : Bool

/-- Failures logged by `configureCameraParams` on its error paths. -/
inductive ConfigEvent where
  | exposureSetFailed
  | exposureAutoFailed
  | gainSetFailed
  | gainAutoFailed
  | frameRateSetFailed
  | triggerDelaySetFailed
deriving DecidableEq

/-- `configureCameraParams` from `common/ProjectorWithCamera.cpp` (lines
135-218): result flag plus the failures it logs.  An exposure-time or gain
write failure returns `false` immediately; auto-mode, frame-rate and
trigger-delay write failures are logged and the function continues. -/
def configureCameraParams (p : CameraParams) (dev : DeviceResponses) :
    Bool × List ConfigEvent :=
  if 0 < p.exposureTimeUs ∧ dev.setExposureTime = false then
    (false, [ConfigEvent.exposureSetFailed])
  else
    let e2 : List ConfigEvent :=
      if p.exposureAutoMode = true ∧ dev.setExposureAuto = false then
        [ConfigEvent.exposureAutoFailed]
      else []
    if 0 < p.gainValue ∧ dev.setGain = false then
      (false, e2 ++ [ConfigEvent.gainSetFailed])
    else
      let e4 : List ConfigEvent :=
        if p.gainAutoMode = true ∧ dev.setGainAuto = false then
          [ConfigEvent.gainAutoFailed]
        else []
      let e5 : List ConfigEvent :=
        if 0 < p.frameRate ∧ dev.setFrameRate = false then
          [ConfigEvent.frameRateSetFailed]
        else []
      let e6 : List ConfigEvent :=
        if 0 < (p.triggerDelayUs : ℚ) ∧ dev.setTriggerDelay = false then
          [ConfigEvent.triggerDelaySetFailed]
        else []
      (true, e2 ++ e4 ++ e5 ++ e6)

/-- Default camera parameters installed when no saved file is used
(lines 433-441). -/
def defaultCameraParams : CameraParams :=
  ⟨10000, false, 5, false, 10, 0, false, true⟩

/-- Projector illumination channel (only `Blue` occurs in the sources). -/
inductive Illumination where
  | Blue
deriving DecidableEq

/-- `PatternOrderSet` fields populated by the cooperation demo. -/
structure PatternOrderSet where
  exposureTime : ℤ
  preExposureTime : ℤ
  postExposureTime : ℤ
  illumination : Illumination
  invertPatterns : Bool
  isVertical : Bool
  isOneBit : Bool
  patternArrayCounts : ℤ

/-- `patternSets[0]` of `runProjectorCameraCooperation` (lines 530-538). -/
def coopPatternSet0 (deviceWidth : ℤ) : PatternOrderSet :=
  ⟨4000, 3000, 3000, Illumination.Blue, false, true, false, deviceWidth⟩

/-- `patternSets[1]` of `runProjectorCameraCooperation` (lines 541-549). -/
def coopPatternSet1 (deviceHeight : ℤ) : PatternOrderSet :=
  ⟨4000, 3000, 3000, Illumination.Blue, false, false, false, deviceHeight⟩

/-- The `waitMsFromTiming` lambda (lines 574-581): select the vertical or the
horizontal PatternOrderSet, convert its pre+exposure+post budget to ms with C
integer division, floor at 1 ms, then add the 10 ms margin. -/
def waitMsFromTiming (set0 set1 : PatternOrderSet) (vertical : Bool) : ℤ :=
  let pre := if vertical then set0.preExposureTime else set1.preExposureTime
  let e := if vertical then set0.exposureTime else set1.exposureTime
  let post := if vertical then set0.postExposureTime else set1.postExposureTime
  let ms := Int.tdiv (pre + e + post) 1000
  let ms2 := if ms < 1 then 1 else ms
  ms2 + 10

/-- Per-iteration SDK responses observed by the acquisition loop
(`true` = MV_OK / projector success). -/
structure LoopEnv where
  stepOk : ℕ → Bool
  getSelectorOk : ℕ → Bool
  selectorVal : ℕ → ℤ
  triggerOk : ℕ → Bool
  getExposureOk : ℕ → Bool
  exposureValue : ℕ → ℚ

/-- C cast of a floating value to `int`: truncation toward zero. -/
def truncToInt (q : ℚ) : ℤ := if q < 0 then -⌊-q⌋ else ⌊q⌋

/-- Software-trigger command selection (lines 600-612): `FrameTriggerSoftware`
when the TriggerSelector reads back as FrameStart (enum value 0), otherwise
`TriggerSoftware` (also the fallback when the read fails). -/
def triggerCommandFor (env : LoopEnv) (i : ℕ) : String :=
  if env.getSelectorOk i = true ∧ env.selectorVal i = 0 then "FrameTriggerSoftware"
  else "TriggerSoftware"

/-- Post-trigger wait (lines 620-630): exposure/1000 + 500 ms capped at
5000 ms when the exposure read succeeds, otherwise the 1000 ms default. -/
def captureWaitMs (env : LoopEnv) (i : ℕ) : ℤ :=
  if env.getExposureOk i = true then
    min (truncToInt (env.exposureValue i / 1000) + 500) 5000
  else 1000

/-- Observable actions of one pass of the acquisition loop; `idx` is the
1-based step number printed by the code. -/
inductive LoopEvent where
  | stepCmd (idx : ℕ) (ok : Bool)
  | stabilize (idx : ℕ) (ms : ℤ) (vertical : Bool)
  | trigger (idx : ℕ) (cmd : String) (ok : Bool)
  | captureWait (idx : ℕ) (ms : ℤ)
deriving DecidableEq

/-- Step number of an event. -/
def eventStep : LoopEvent → ℕ
  | .stepCmd idx _ => idx
  | .stabilize idx _ _ => idx
  | .trigger idx _ _ => idx
  | .captureWait idx _ => idx

/-- The acquisition loop of `runProjectorCameraCooperation` (lines 583-633)
as the trace of the commands and waits it performs; `rem` is the remaining
iteration count, `i` the 0-based loop variable.  A failed projector step or
a failed software trigger executes `break`: the recursion stops. -/
def loopEventsAux (env : LoopEnv) (set0 set1 : PatternOrderSet) (steps : ℕ) :
    ℕ → ℕ → List LoopEvent
  | 0, _ => []
  | rem + 1, i =>
    if env.stepOk i = false then [LoopEvent.stepCmd (i + 1) false]
    else
      let vert : Bool := decide (i < steps)
      let stab := waitMsFromTiming set0 set1 vert
      let cmd := triggerCommandFor env i
      if env.triggerOk i = false then
        [LoopEvent.stepCmd (i + 1) true, LoopEvent.stabilize (i + 1) stab vert,
         LoopEvent.trigger (i + 1) cmd false]
      else
        LoopEvent.stepCmd (i + 1) true :: LoopEvent.stabilize (i + 1) stab vert ::
          LoopEvent.trigger (i + 1) cmd true ::
          LoopEvent.captureWait (i + 1) (captureWaitMs env i) ::
          loopEventsAux env set0 set1 steps rem (i + 1)

/-- The full loop: `for (int i = 0; i < steps * 2; ++i)`. -/
def loopEvents (env : LoopEnv) (set0 set1 : PatternOrderSet) (steps : ℕ) : List LoopEvent :=
  loopEventsAux env set0 set1 steps (2 * steps) 0

/-- Zero-padded decimal numeral of width at least 3: the `%03d` conversion. -/
def pad3 (n : ℕ) : String :=
  if n < 10 then "00" ++ Nat.repr n
  else if n < 100 then "0" ++ Nat.repr n
  else Nat.repr n

/-- File name `I%03d_%c.png` written by the cooperation frame callback. -/
def coopFileName (idx : ℕ) (vertical : Bool) : String :=
  "I" ++ pad3 idx ++ "_" ++ (if vertical then "V" else "H") ++ ".png"

/-- `CallbackContext` of `runProjectorCameraCooperation` (lines 454-459),
extended with the frames the callback has persisted (index and file name,
in delivery order) so persistence is observable. -/
structure CallbackContext where
  frameIndex : ℕ
  totalFrames : ℕ
  stepsPerOrientation : ℕ
  saved : List (ℕ × String)

/-- Context initialisation (lines 460-461): totalFrames = steps * 2. -/
def mkCallbackContext (steps : ℕ) : CallbackContext := ⟨0, steps * 2, steps, []⟩

/-- `ImageCallbackEx` of `runProjectorCameraCooperation` (lines 472-495):
guard null arguments, draw the next 1-based index from the shared atomic
counter, and persist `I%03d_V.png` / `I%03d_H.png` only when the index is
within totalFrames (vertical iff index ≤ stepsPerOrientation). -/
def ImageCallbackEx (validFrame : Bool) (ctx : CallbackContext) : CallbackContext :=
  if validFrame = false then ctx
  else
    let idx := 1 + ctx.frameIndex
    let ctx2 := { ctx with frameIndex := ctx.frameIndex + 1 }
    if idx ≤ ctx.totalFrames then
      { ctx2 with saved := ctx2.saved ++
          [(idx, coopFileName idx (decide (idx ≤ ctx.stepsPerOrientation)))] }
    else ctx2

/-- `m` consecutive valid frame deliveries into a fresh session context. -/
def deliverFrames (steps : ℕ) : ℕ → CallbackContext
  | 0 => mkCallbackContext steps
  | m + 1 => ImageCallbackEx true (deliverFrames steps m)

/-- Success flags for the setup stages of `runProjectorCameraCooperation`
that precede the acquisition loop. -/
structure SetupEnv where
  projectorAvailable : Bool
  projectorConnect : Bool
  camerasFound : Bool
  createHandle : Bool
  openDevice : Bool
  deviceConfig : DeviceResponses
  registerCallback : Bool
  startGrabbing : Bool
  populateOk : Bool
  projectOk : Bool

/-- `runProjectorCameraCooperation` (lines 329-651): the guarded setup
stages in source order, then the acquisition loop; the loop's outcome does
not influence the returned flag — after the loop the code tears down and
returns `true`. -/
noncomputable def runProjectorCameraCooperation (setup : SetupEnv) (env : LoopEnv)
    (params : CameraParams)
    (deviceWidth deviceHeight steps frequency intensity offset : ℤ)
    (noiseStd : ℝ) (noise : ℕ → ℝ) : Bool × List LoopEvent :=
  if setup.projectorAvailable = false then (false, [])
  else if setup.projectorConnect = false then (false, [])
  else if setup.camerasFound = false then (false, [])
  else if setup.createHandle = false then (false, [])
  else if setup.openDevice = false then (false, [])
  else if (configureCameraParams params setup.deviceConfig).1 = false then (false, [])
  else if setup.registerCallback = false then (false, [])
  else if setup.startGrabbing = false then (false, [])
  else if ((generatePhaseShiftFringeImages deviceWidth deviceHeight frequency intensity
      offset noiseStd noise steps).length : ℤ) ≠ steps * 2 then (false, [])
  else if setup.populateOk = false then (false, [])
  else if setup.projectOk = false then (false, [])
  else (true, loopEvents env (coopPatternSet0 deviceWidth) (coopPatternSet1 deviceHeight)
    steps.toNat)

end ProjectorWithCamera

namespace CameraTest

/-- File name `"I" + std::to_string(idx) + ".png"` written by the test
harness callback in `common/CameraTest.cpp` (line 91). -/
def camTestFileName (idx : ℕ) : String := "I" ++ Nat.repr idx ++ ".png"

/-- `CallbackContext` of `common/CameraTest.cpp` (lines 73-77), extended with
the persisted frames. -/
structure CallbackContext where
  frameIndex : ℕ
  totalFrames : ℕ
  saved : List (ℕ × String)

/-- `ImageCallbackEx` of `common/CameraTest.cpp` (lines 81-100): same counter
discipline as the cooperation callback, plain-decimal file names, no
orientation tag. -/
def ImageCallbackEx (validFrame : Bool) (c : CallbackContext) : CallbackContext :=
  if validFrame = false then c
  else
    let idx := 1 + c.frameIndex
    let c2 := { c with frameIndex := c.frameIndex + 1 }
    if idx ≤ c.totalFrames then
      { c2 with saved := c2.saved ++ [(idx, camTestFileName idx)] }
    else c2

/-- A device-reported float range `{fMin, fMax}`. -/
structure FloatRange where
  fMin : ℚ
  fMax : ℚ

/-- Results of the live range queries in section 4.1 of `runCameraTest`
(`true` = the MV_CC_GetFloatValue call returned MV_OK). -/
structure RangeQueries where
  exposureOk : Bool
  exposure : FloatRange
  gainOk : Bool
  gain : FloatRange
  frameRateOk : Bool
  frameRate : FloatRange
  triggerDelayOk : Bool
  triggerDelay : FloatRange

/-- Camera state touched by section 4.1 of `runCameraTest`: the auto-mode
enums (0 = Off), the frame-rate enable flag and the four applied values. -/
structure CamValues where
  exposureAuto : ℤ
  gainAuto : ℤ
  frameRateEnable : Bool
  exposureTime : ℚ
  gain : ℚ
  frameRate : ℚ
  triggerDelay : ℚ

/-- The clamp pattern of `runCameraTest`:
`double v = requested; if (v < fMin) v = fMin; if (v > fMax) v = fMax;`
(two sequential tests, not nested). -/
def clampToRange (v lo hi : ℚ) : ℚ :=
  let v1 := if v < lo then lo else v
  if hi < v1 then hi else v1

/-- Section 4.1 of `runCameraTest` (`common/CameraTest.cpp` lines 265-310):
each of the four optional parameters is applied only when the requested
value is nonnegative; exposure and gain first force their auto mode to Off,
the frame rate first sets AcquisitionFrameRateEnable, trigger delay has no
mode toggle; the value written is the requested one clamped to the live
device range (skipped when the range query fails). -/
def applyCameraTestParams (exposureTimeUs gainValue acquisitionFps triggerDelayUs : ℚ)
    (rng : RangeQueries) (s : CamValues) : CamValues :=
  let s1 :=
    if 0 ≤ exposureTimeUs then
      let sa := { s with exposureAuto := 0 }
      if rng.exposureOk = true then
        { sa with exposureTime := clampToRange exposureTimeUs rng.exposure.fMin rng.exposure.fMax }
      else sa
    else s
  let s2 :=
    if 0 ≤ gainValue then
      let sa := { s1 with gainAuto := 0 }
      if rng.gainOk = true then
        { sa with gain := clampToRange gainValue rng.gain.fMin rng.gain.fMax }
      else sa
    else s1
  let s3 :=
    if 0 ≤ acquisitionFps then
      let sa := { s2 with frameRateEnable := true }
      if rng.frameRateOk = true then
        { sa with frameRate := clampToRange acquisitionFps rng.frameRate.fMin rng.frameRate.fMax }
      else sa
    else s2
  if 0 ≤ triggerDelayUs then
    if rng.triggerDelayOk = true then
      { s3 with triggerDelay := clampToRange triggerDelayUs rng.triggerDelay.fMin rng.triggerDelay.fMax }
    else s3
  else s3

end CameraTest

namespace ProjectorWithCamera

/-- Every event of the loop trace starting at 0-based index `i` belongs to a
step numbered at least `i + 1`. -/
theorem eventStep_mem_lower {env : LoopEnv} {set0 set1 : PatternOrderSet} {steps : ℕ} :
    ∀ (rem i : ℕ) (e : LoopEvent), e ∈ loopEventsAux env set0 set1 steps rem i →
      i + 1 ≤ eventStep e := by
  intro rem
  induction rem with
  | zero =>
    intro i e he
    simp [loopEventsAux] at he
  | succ rem ih =>
    intro i e he
    simp only [loopEventsAux] at he
    split_ifs at he with h1 h2
    · simp only [List.mem_singleton] at he
      subst he
      simp [eventStep]
    · simp only [List.mem_cons, List.mem_singleton, List.not_mem_nil, or_false] at he
      rcases he with rfl | rfl | rfl <;> simp [eventStep]
    · simp only [List.mem_cons] at he
      rcases he with rfl | rfl | rfl | rfl | htail
      · simp [eventStep]
      · simp [eventStep]
      · simp [eventStep]
      · simp [eventStep]
      · have := ih (i + 1) e htail
        omega

/-- Every stabilization event of the loop waits exactly the budget computed
by `waitMsFromTiming` for the PatternOrderSet selected by its step number:
the vertical set for steps 1..N, the horizontal set afterwards. -/
theorem stabilize_mem_spec {env : LoopEnv} {set0 set1 : PatternOrderSet} {steps : ℕ} :
    ∀ (rem i k : ℕ) (ms : ℤ) (vert : Bool),
      LoopEvent.stabilize k ms vert ∈ loopEventsAux env set0 set1 steps rem i →
      vert = decide (k ≤ steps) ∧ ms = waitMsFromTiming set0 set1 vert := by
  intro rem
  induction rem with
  | zero =>
    intro i k ms vert he
    simp [loopEventsAux] at he
  | succ rem ih =>
    intro i k ms vert he
    simp only [loopEventsAux] at he
    split_ifs at he with h1 h2
    · simp at he
    · simp only [List.mem_cons, List.mem_singleton, List.not_mem_nil, or_false] at he
      rcases he with he | he | he
      · exact absurd he (by simp)
      · obtain ⟨hk, hms, hv⟩ := LoopEvent.stabilize.inj he.symm
        subst hk
        constructor
        · rw [← hv]
          exact decide_eq_decide.mpr Nat.lt_iff_add_one_le
        · rw [← hv, ← hms]
      · exact absurd he (by simp)
    · simp only [List.mem_cons] at he
      rcases he with he | he | he | he | htail
      · exact absurd he (by simp)
      · obtain ⟨hk, hms, hv⟩ := LoopEvent.stabilize.inj he
        subst hk
        constructor
        · rw [hv]
          exact decide_eq_decide.mpr Nat.lt_iff_add_one_le
        · rw [hv, hms]
      · exact absurd he (by simp)
      · exact absurd he (by simp)
      · exact ih (i + 1) k ms vert htail

/-- Once the software trigger of step `k` has failed, the trace contains no
event of any later step: the `break` ends the loop. -/
theorem trigger_fail_stops {env : LoopEnv} {set0 set1 : PatternOrderSet} {steps : ℕ} :
    ∀ (rem i k : ℕ) (cmd : String),
      LoopEvent.trigger k cmd false ∈ loopEventsAux env set0 set1 steps rem i →
      ∀ e ∈ loopEventsAux env set0 set1 steps rem i, eventStep e ≤ k := by
  intro rem
  induction rem with
  | zero =>
    intro i k cmd ht
    simp [loopEventsAux] at ht
  | succ rem ih =>
    intro i k cmd ht e he
    simp only [loopEventsAux] at ht he
    split_ifs at ht he with h1 h2
    · simp at ht
    · have hk : k = i + 1 := by
        simp only [List.mem_cons, List.mem_singleton, List.not_mem_nil, or_false] at ht
        rcases ht with ht | ht | ht
        · exact absurd ht (by simp)
        · exact absurd ht (by simp)
        · exact (LoopEvent.trigger.inj ht).1
      simp only [List.mem_cons, List.mem_singleton, List.not_mem_nil, or_false] at he
      rcases he with rfl | rfl | rfl <;> simp [eventStep, hk]
    · have htail : LoopEvent.trigger k cmd false ∈ loopEventsAux env set0 set1 steps rem (i + 1) := by
        simp only [List.mem_cons] at ht
        rcases ht with ht | ht | ht | ht | ht
        · exact absurd ht (by simp)
        · exact absurd ht (by simp)
        · exact absurd ht (by simp)
        · exact absurd ht (by simp)
        · exact ht
      have hklow : i + 2 ≤ k := by
        have := eventStep_mem_lower rem (i + 1) (LoopEvent.trigger k cmd false) htail
        simpa [eventStep] using this
      simp only [List.mem_cons] at he
      rcases he with rfl | rfl | rfl | rfl | he
      · simp [eventStep]; omega
      · simp [eventStep]; omega
      · simp [eventStep]; omega
      · simp [eventStep]; omega
      · exact ih (i + 1) k cmd htail e he

/-- An all-success SDK environment for the loop (exposure read fails so the
capture wait takes its 1000 ms default). -/
def envAllOk : LoopEnv :=
  ⟨fun _ => true, fun _ => true, fun _ => 0, fun _ => true, fun _ => false, fun _ => 0⟩

/-- An environment whose software trigger always fails (selector and
exposure reads fail too, exercising the fallback paths). -/
def envTriggerFail : LoopEnv :=
  ⟨fun _ => true, fun _ => false, fun _ => 0, fun _ => false, fun _ => false, fun _ => 0⟩

/-- C4 counterexample: with N = 1 (a 2-step session) and the trigger command
failing at step 1, the loop records the failure and stops — the trace has no
event of step 2, in particular the projector is never stepped again, so the
loop does not continue to step i+1 as the claim states. -/
theorem trigger_failure_stops_loop :
    LoopEvent.trigger 1 "TriggerSoftware" false ∈
      loopEvents envTriggerFail (coopPatternSet0 1920) (coopPatternSet1 1080) 1 ∧
    (∀ e ∈ loopEvents envTriggerFail (coopPatternSet0 1920) (coopPatternSet1 1080) 1,
      eventStep e ≤ 1) ∧
    LoopEvent.stepCmd 2 true ∉
      loopEvents envTriggerFail (coopPatternSet0 1920) (coopPatternSet1 1080) 1 ∧
    LoopEvent.stepCmd 2 false ∉
      loopEvents envTriggerFail (coopPatternSet0 1920) (coopPatternSet1 1080) 1 := by
  decide

/-- C4 amended: a software-trigger failure at step i is recorded in the trace
and exits the loop — every event of the session trace belongs to a step ≤ i —
while the session itself is not aborted: it proceeds to teardown and the
entry point still returns `true` (the loop outcome does not affect it). -/
theorem trigger_failure_soft_exit :
    (∀ (env : LoopEnv) (set0 set1 : PatternOrderSet) (steps k : ℕ) (cmd : String),
      LoopEvent.trigger k cmd false ∈ loopEvents env set0 set1 steps →
      ∀ e ∈ loopEvents env set0 set1 steps, eventStep e ≤ k) ∧
    (∀ (setup : SetupEnv) (env : LoopEnv) (params : CameraParams)
        (w h steps f i o : ℤ) (nl : ℝ) (nz : ℕ → ℝ),
      setup.projectorAvailable = true → setup.projectorConnect = true →
      setup.camerasFound = true → setup.createHandle = true → setup.openDevice = true →
      (configureCameraParams params setup.deviceConfig).1 = true →
      setup.registerCallback = true → setup.startGrabbing = true →
      0 < w → 0 < h → 0 < f → 0 < steps →
      setup.populateOk = true → setup.projectOk = true →
      runProjectorCameraCooperation setup env params w h steps f i o nl nz =
        (true, loopEvents env (coopPatternSet0 w) (coopPatternSet1 h) steps.toNat)) := by
  constructor
  · intro env set0 set1 steps k cmd ht e he
    exact trigger_fail_stops (2 * steps) 0 k cmd ht e he
  · intro setup env params w h steps f i o nl nz h1 h2 h3 h4 h5 h6 h7 h8 hw hh hf hs h9 h10
    have hlen := @generate_length w h f i o nl nz steps hw hh hf hs
    have hcast : ((2 * steps.toNat : ℕ) : ℤ) = steps * 2 := by
      push_cast [Int.toNat_of_nonneg hs.le]
      ring
    simp only [runProjectorCameraCooperation, h1, h2, h3, h4, h5, h6, h7, h8, h9, h10,
      hlen, hcast]
    simp

/-- Witness for the amended C4: the bound applied to the first event of the
failing concrete trace. -/
theorem trigger_failure_soft_exit_check :
    eventStep (LoopEvent.stepCmd 1 true) ≤ 1 :=
  trigger_failure_soft_exit.1 envTriggerFail (coopPatternSet0 1920) (coopPatternSet1 1080)
    1 1 "TriggerSoftware" (by decide) (LoopEvent.stepCmd 1 true) (by decide)

/-- C7: every stabilization wait in the acquisition loop uses the vertical
PatternOrderSet timing for steps i ≤ N and the horizontal one afterwards;
in general the wait equals the (pre+exposure+post)/1000 ms budget of the
selected set plus a margin of at least 10 ms; with the demo timing
(exposure 4000 µs, pre 3000 µs, post 3000 µs) every wait is exactly 20 ms,
hence at least 20 ms. -/
theorem stabilization_wait_budget :
    (∀ (env : LoopEnv) (set0 set1 : PatternOrderSet) (steps k : ℕ) (ms : ℤ) (vert : Bool),
      LoopEvent.stabilize k ms vert ∈ loopEvents env set0 set1 steps →
      vert = decide (k ≤ steps) ∧ ms = waitMsFromTiming set0 set1 vert) ∧
    (∀ (set0 set1 : PatternOrderSet) (vert : Bool),
      ∃ m : ℤ, 10 ≤ m ∧
        waitMsFromTiming set0 set1 vert =
          Int.tdiv ((if vert then set0.preExposureTime else set1.preExposureTime) +
            (if vert then set0.exposureTime else set1.exposureTime) +
            (if vert then set0.postExposureTime else set1.postExposureTime)) 1000 + m) ∧
    (∀ (w h : ℤ) (vert : Bool),
      waitMsFromTiming (coopPatternSet0 w) (coopPatternSet1 h) vert = 20) ∧
    (20 : ℤ) ≤ Int.tdiv (3000 + 4000 + 3000) 1000 + 10 := by
  refine ⟨?_, ?_, ?_, by decide⟩
  · intro env set0 set1 steps k ms vert hmem
    exact stabilize_mem_spec (2 * steps) 0 k ms vert hmem
  · intro set0 set1 vert
    simp only [waitMsFromTiming]
    by_cases hb : Int.tdiv ((if vert then set0.preExposureTime else set1.preExposureTime) +
        (if vert then set0.exposureTime else set1.exposureTime) +
        (if vert then set0.postExposureTime else set1.postExposureTime)) 1000 < 1
    · exact ⟨11 - Int.tdiv ((if vert then set0.preExposureTime else set1.preExposureTime) +
        (if vert then set0.exposureTime else set1.exposureTime) +
        (if vert then set0.postExposureTime else set1.postExposureTime)) 1000,
        by omega, by rw [if_pos hb]; ring⟩
    · exact ⟨10, le_refl 10, by rw [if_neg hb]⟩
  · intro w h vert
    cases vert <;> rfl

/-- Witness for C7: the stabilization wait of step 1 in a concrete 8-step
trace, plus the margin decomposition for the demo PatternOrderSets. -/
theorem stabilization_wait_budget_check :
    (true = decide ((1:ℕ) ≤ 4) ∧
      (20 : ℤ) = waitMsFromTiming (coopPatternSet0 1920) (coopPatternSet1 1080) true) ∧
    waitMsFromTiming (coopPatternSet0 1920) (coopPatternSet1 1080) false = 20 :=
  ⟨stabilization_wait_budget.1 envAllOk (coopPatternSet0 1920) (coopPatternSet1 1080)
      4 1 20 true (by decide),
    stabilization_wait_budget.2.2.1 1920 1080 false⟩

/-- One valid delivery into the cooperation callback: the index handed out is
1 + the previous counter value, the counter advances, the session constants
are untouched, and the frame is persisted exactly when the index is within
totalFrames. -/
theorem ImageCallbackEx_spec (ctx : CallbackContext) :
    (ImageCallbackEx true ctx).totalFrames = ctx.totalFrames ∧
    (ImageCallbackEx true ctx).stepsPerOrientation = ctx.stepsPerOrientation ∧
    (ImageCallbackEx true ctx).frameIndex = ctx.frameIndex + 1 ∧
    (ImageCallbackEx true ctx).saved =
      (if 1 + ctx.frameIndex ≤ ctx.totalFrames then
        ctx.saved ++ [(1 + ctx.frameIndex, coopFileName (1 + ctx.frameIndex)
          (decide (1 + ctx.frameIndex ≤ ctx.stepsPerOrientation)))]
      else ctx.saved) := by
  unfold ImageCallbackEx
  rw [if_neg (by simp : ¬(true = false))]
  by_cases h : 1 + ctx.frameIndex ≤ ctx.totalFrames
  · simp [h]
  · simp [h]

/-- The counter and saved list after `m` valid deliveries: the counter counts
every arrival, and the saved list is exactly the frames indexed 1..min m 2N,
in order, each under its `I%03d_V/H.png` name with V iff index ≤ N. -/
theorem deliverFrames_spec (steps m : ℕ) :
    (deliverFrames steps m).totalFrames = steps * 2 ∧
    (deliverFrames steps m).stepsPerOrientation = steps ∧
    (deliverFrames steps m).frameIndex = m ∧
    (deliverFrames steps m).saved =
      (List.range (min m (steps * 2))).map
        (fun k => (k + 1, coopFileName (k + 1) (decide (k + 1 ≤ steps)))) := by
  induction m with
  | zero =>
    refine ⟨rfl, rfl, rfl, ?_⟩
    simp [deliverFrames, mkCallbackContext]
  | succ m ih =>
    obtain ⟨ht, hs, hf, hsv⟩ := ih
    obtain ⟨ht', hs', hf', hsv'⟩ := ImageCallbackEx_spec (deliverFrames steps m)
    have hdef : deliverFrames steps (m + 1) = ImageCallbackEx true (deliverFrames steps m) := rfl
    rw [hdef, ht', hs', hf', hsv', ht, hs, hf, hsv]
    refine ⟨rfl, rfl, rfl, ?_⟩
    by_cases hm : 1 + m ≤ steps * 2
    · rw [if_pos hm]
      have h1 : min (m + 1) (steps * 2) = m + 1 := by omega
      have h2 : min m (steps * 2) = m := by omega
      rw [h1, h2]
      rw [show List.range (m + 1) = List.range m ++ [m] from by
        simpa using List.range_succ (n := m)]
      simp
      exact ⟨by omega, by rw [Nat.add_comm 1 m]⟩
    · rw [if_neg hm]
      have h1 : min (m + 1) (steps * 2) = min m (steps * 2) := by omega
      rw [h1]

/-- C3: the cooperation frame sink assigns each arriving frame the index
1 + (previous value of the shared counter); it persists the frame iff that
index is at most totalFrames = 2N, tagging it vertical (`_V`) iff the index
is at most N; arrivals beyond 2N only advance the counter — they are the
discarded count — and are never persisted. -/
theorem frame_sink_contract :
    (∀ ctx : CallbackContext,
      (ImageCallbackEx true ctx).frameIndex = ctx.frameIndex + 1 ∧
      (ImageCallbackEx true ctx).saved =
        (if 1 + ctx.frameIndex ≤ ctx.totalFrames then
          ctx.saved ++ [(1 + ctx.frameIndex, coopFileName (1 + ctx.frameIndex)
            (decide (1 + ctx.frameIndex ≤ ctx.stepsPerOrientation)))]
        else ctx.saved)) ∧
    (∀ steps m : ℕ,
      (deliverFrames steps m).totalFrames = steps * 2 ∧
      (deliverFrames steps m).frameIndex = m ∧
      (deliverFrames steps m).saved =
        (List.range (min m (steps * 2))).map
          (fun k => (k + 1, coopFileName (k + 1) (decide (k + 1 ≤ steps)))) ∧
      (∀ pr ∈ (deliverFrames steps m).saved, pr.1 ≤ steps * 2) ∧
      (deliverFrames steps m).frameIndex - (deliverFrames steps m).saved.length
        = m - min m (steps * 2)) := by
  constructor
  · intro ctx
    obtain ⟨_, _, hf, hsv⟩ := ImageCallbackEx_spec ctx
    exact ⟨hf, hsv⟩
  · intro steps m
    obtain ⟨ht, _, hf, hsv⟩ := deliverFrames_spec steps m
    refine ⟨ht, hf, hsv, ?_, ?_⟩
    · intro pr hpr
      rw [hsv] at hpr
      obtain ⟨k, hk, rfl⟩ := List.mem_map.mp hpr
      have := List.mem_range.mp hk
      simp only
      omega
    · rw [hf, hsv]
      simp

/-- Witness for C3: after 9 deliveries into a 2N = 8 session, frame 1 was
persisted with a vertical tag and its index is within bounds, the counter
counted all 9 arrivals, and exactly one arrival was discarded. -/
theorem frame_sink_contract_check :
    ((1 : ℕ), coopFileName 1 (decide (1 ≤ 4))).1 ≤ 4 * 2 ∧
    (deliverFrames 4 9).frameIndex = 9 ∧
    (deliverFrames 4 9).frameIndex - (deliverFrames 4 9).saved.length = 9 - min 9 (4 * 2) :=
  ⟨(frame_sink_contract.2 4 9).2.2.2.1 (1, coopFileName 1 (decide (1 ≤ 4))) (by decide),
    (frame_sink_contract.2 4 9).2.1,
    (frame_sink_contract.2 4 9).2.2.2.2⟩

/-- C9 counterexample: the first frame persisted by the cooperation session
is named `I001_V.png` — the `%03d` conversion zero-pads the index to three
digits — which differs from the plain-decimal name `I1_V.png` that the
claim's `I<index>_<V|H>.png` scheme prescribes for index 1. -/
theorem coop_filename_zero_padded :
    (deliverFrames 4 1).saved = [(1, "I001_V.png")] ∧
    coopFileName 1 true ≠ "I" ++ Nat.repr 1 ++ "_" ++ "V" ++ ".png" := by
  decide

/-- C9 amended: every persisted frame follows exactly one fixed scheme per
program — the cooperation session saves index i as
`I<i zero-padded to three digits>_V.png` for i ≤ N and `..._H.png`
otherwise, while the CameraTest harness saves `I<i>.png` with the plain
decimal index and no orientation tag. -/
theorem filename_schemes :
    (∀ (steps m : ℕ) (pr : ℕ × String), pr ∈ (deliverFrames steps m).saved →
      pr.2 = "I" ++ pad3 pr.1 ++ "_" ++ (if pr.1 ≤ steps then "V" else "H") ++ ".png") ∧
    (∀ idx : ℕ, CameraTest.camTestFileName idx = "I" ++ Nat.repr idx ++ ".png") ∧
    (∀ (c : CameraTest.CallbackContext) (pr : ℕ × String),
      pr ∈ (CameraTest.ImageCallbackEx true c).saved →
      pr ∈ c.saved ∨ pr = (1 + c.frameIndex, CameraTest.camTestFileName (1 + c.frameIndex))) := by
  refine ⟨?_, fun idx => rfl, ?_⟩
  · intro steps m pr hpr
    obtain ⟨_, _, _, hsv⟩ := deliverFrames_spec steps m
    rw [hsv] at hpr
    obtain ⟨k, _, rfl⟩ := List.mem_map.mp hpr
    simp only [coopFileName]
    by_cases hk : k + 1 ≤ steps
    · rw [if_pos hk, if_pos (by simpa using hk)]
    · rw [if_neg hk, if_neg (by simpa using hk)]
  · intro c pr hpr
    simp only [CameraTest.ImageCallbackEx, if_neg (by simp : ¬(true = false))] at hpr
    by_cases h : 1 + c.frameIndex ≤ c.totalFrames
    · rw [if_pos h] at hpr
      simp only [List.mem_append, List.mem_singleton] at hpr
      rcases hpr with hpr | hpr
      · exact Or.inl hpr
      · exact Or.inr hpr
    · rw [if_neg h] at hpr
      exact Or.inl hpr

/-- Witness for the amended C9: the persisted frame (1, I001_V.png) of a
concrete session carries the padded vertical scheme, and CameraTest's name
for index 1 is the plain-decimal `I1.png`. -/
theorem filename_schemes_check :
    ((1 : ℕ), ("I001_V.png" : String)).2 =
      "I" ++ pad3 (1, ("I001_V.png" : String)).1 ++ "_" ++
        (if (1, ("I001_V.png" : String)).1 ≤ 4 then "V" else "H") ++ ".png" ∧
    CameraTest.camTestFileName 1 = "I" ++ Nat.repr 1 ++ ".png" :=
  ⟨filename_schemes.1 4 1 (1, "I001_V.png") (by decide), filename_schemes.2.1 1⟩

/-- Device responses rejecting only the gain write. -/
def devGainReject : DeviceResponses := ⟨true, true, false, true, true, true⟩

/-- All setup stages succeeding, with the gain-rejecting device plugged in. -/
def setupGainReject : SetupEnv :=
  ⟨true, true, true, true, true, devGainReject, true, true, true, true⟩

/-- C5 counterexample: when the device rejects the gain setpoint (default
parameters request gain 5 > 0), `configureCameraParams` logs the failure but
returns `false` instead of continuing, and the cooperation session aborts:
the entry point returns `false` because of an optional-parameter rejection. -/
theorem gain_rejection_aborts :
    (configureCameraParams defaultCameraParams devGainReject).1 = false ∧
    ConfigEvent.gainSetFailed ∈ (configureCameraParams defaultCameraParams devGainReject).2 ∧
    (runProjectorCameraCooperation setupGainReject envAllOk defaultCameraParams
      1920 1080 4 32 100 128 0 (fun _ => 0)).1 = false := by
  refine ⟨by decide, by decide, ?_⟩
  rfl

/-- C5 amended: rejection of the frame-rate or trigger-delay setpoint is
non-fatal — `configureCameraParams` logs it and still returns `true` — but
rejection of the gain setpoint (like exposure) makes the configuration
return `false` and is therefore fatal to the session. -/
theorem optional_param_failure_policy :
    (∀ (p : CameraParams) (dev : DeviceResponses),
      ¬(0 < p.exposureTimeUs ∧ dev.setExposureTime = false) →
      ¬(0 < p.gainValue ∧ dev.setGain = false) →
      (configureCameraParams p dev).1 = true ∧
      ((0 < p.frameRate ∧ dev.setFrameRate = false) →
        ConfigEvent.frameRateSetFailed ∈ (configureCameraParams p dev).2) ∧
      ((0 < (p.triggerDelayUs : ℚ) ∧ dev.setTriggerDelay = false) →
        ConfigEvent.triggerDelaySetFailed ∈ (configureCameraParams p dev).2)) ∧
    (∀ (p : CameraParams) (dev : DeviceResponses),
      ¬(0 < p.exposureTimeUs ∧ dev.setExposureTime = false) →
      (0 < p.gainValue ∧ dev.setGain = false) →
      (configureCameraParams p dev).1 = false ∧
      ConfigEvent.gainSetFailed ∈ (configureCameraParams p dev).2) := by
  constructor
  · intro p dev h1 h2
    simp only [configureCameraParams, if_neg h1, if_neg h2]
    refine ⟨by trivial, ?_, ?_⟩
    · intro h5
      rw [if_pos h5]
      simp
    · intro h6
      rw [if_pos h6]
      simp
  · intro p dev h1 h2
    simp only [configureCameraParams, if_neg h1, if_pos h2]
    simp

/-- Device responses rejecting only the frame-rate write. -/
def devFrameRateReject : DeviceResponses := ⟨true, true, true, true, false, true⟩

/-- Witness for the amended C5: a frame-rate rejection under the default
parameters is logged and the configuration still succeeds. -/
theorem optional_param_failure_policy_check :
    (configureCameraParams defaultCameraParams devFrameRateReject).1 = true ∧
    ConfigEvent.frameRateSetFailed ∈
      (configureCameraParams defaultCameraParams devFrameRateReject).2 := by
  have h := optional_param_failure_policy.1 defaultCameraParams devFrameRateReject
    (by decide) (by decide)
  exact ⟨h.1, h.2.1 (by decide)⟩

end ProjectorWithCamera

namespace CameraTest

theorem apply_exposure_neg {e g fps td : ℚ} {rng : RangeQueries} {s : CamValues}
    (he : e < 0) :
    (applyCameraTestParams e g fps td rng s).exposureAuto = s.exposureAuto ∧
    (applyCameraTestParams e g fps td rng s).exposureTime = s.exposureTime := by
  simp only [applyCameraTestParams, if_neg (not_le.mpr he)]
  split_ifs <;> simp

theorem apply_exposure_nonneg {e g fps td : ℚ} {rng : RangeQueries} {s : CamValues}
    (he : 0 ≤ e) :
    (applyCameraTestParams e g fps td rng s).exposureAuto = 0 ∧
    (rng.exposureOk = true →
      (applyCameraTestParams e g fps td rng s).exposureTime =
        clampToRange e rng.exposure.fMin rng.exposure.fMax) := by
  simp only [applyCameraTestParams, if_pos he]
  split_ifs <;> simp_all

theorem apply_gain_neg {e g fps td : ℚ} {rng : RangeQueries} {s : CamValues}
    (hg : g < 0) :
    (applyCameraTestParams e g fps td rng s).gainAuto = s.gainAuto ∧
    (applyCameraTestParams e g fps td rng s).gain = s.gain := by
  simp only [applyCameraTestParams, if_neg (not_le.mpr hg)]
  split_ifs <;> simp

theorem apply_gain_nonneg {e g fps td : ℚ} {rng : RangeQueries} {s : CamValues}
    (hg : 0 ≤ g) :
    (applyCameraTestParams e g fps td rng s).gainAuto = 0 ∧
    (rng.gainOk = true →
      (applyCameraTestParams e g fps td rng s).gain =
        clampToRange g rng.gain.fMin rng.gain.fMax) := by
  simp only [applyCameraTestParams, if_pos hg]
  split_ifs <;> simp_all

theorem apply_fps_neg {e g fps td : ℚ} {rng : RangeQueries} {s : CamValues}
    (hfps : fps < 0) :
    (applyCameraTestParams e g fps td rng s).frameRateEnable = s.frameRateEnable ∧
    (applyCameraTestParams e g fps td rng s).frameRate = s.frameRate := by
  simp only [applyCameraTestParams, if_neg (not_le.mpr hfps)]
  split_ifs <;> simp

theorem apply_fps_nonneg {e g fps td : ℚ} {rng : RangeQueries} {s : CamValues}
    (hfps : 0 ≤ fps) :
    (applyCameraTestParams e g fps td rng s).frameRateEnable = true ∧
    (rng.frameRateOk = true →
      (applyCameraTestParams e g fps td rng s).frameRate =
        clampToRange fps rng.frameRate.fMin rng.frameRate.fMax) := by
  simp only [applyCameraTestParams, if_pos hfps]
  split_ifs <;> simp_all

theorem apply_td_neg {e g fps td : ℚ} {rng : RangeQueries} {s : CamValues}
    (htd : td < 0) :
    (applyCameraTestParams e g fps td rng s).triggerDelay = s.triggerDelay := by
  simp only [applyCameraTestParams, if_neg (not_le.mpr htd)]
  split_ifs <;> simp

theorem apply_td_nonneg {e g fps td : ℚ} {rng : RangeQueries} {s : CamValues}
    (htd : 0 ≤ td) :
    rng.triggerDelayOk = true →
      (applyCameraTestParams e g fps td rng s).triggerDelay =
        clampToRange td rng.triggerDelay.fMin rng.triggerDelay.fMax := by
  simp only [applyCameraTestParams, if_pos htd]
  split_ifs <;> simp_all

theorem clampToRange_mem (v lo hi : ℚ) (h : lo ≤ hi) :
    lo ≤ clampToRange v lo hi ∧ clampToRange v lo hi ≤ hi := by
  simp only [clampToRange]
  split_ifs <;> constructor <;> linarith

theorem clampToRange_id (v lo hi : ℚ) (h1 : lo ≤ v) (h2 : v ≤ hi) :
    clampToRange v lo hi = v := by
  simp only [clampToRange]
  split_ifs <;> first | rfl | linarith

/-- C6: for each of the four optional parameters of `runCameraTest`, a
negative request leaves the camera's mode and value untouched, while a
nonnegative request disables the corresponding automatic mode (exposure and
gain force Auto = Off, frame rate sets AcquisitionFrameRateEnable; trigger
delay has no mode to toggle) and writes the requested value clamped to the
device-reported range; the clamp always lands in [lo,hi] when lo ≤ hi, and
returns the request unchanged when it already lies inside the range. -/
theorem camera_param_clamp_contract :
    (∀ (e g fps td : ℚ) (rng : RangeQueries) (s : CamValues), e < 0 →
      (applyCameraTestParams e g fps td rng s).exposureAuto = s.exposureAuto ∧
      (applyCameraTestParams e g fps td rng s).exposureTime = s.exposureTime) ∧
    (∀ (e g fps td : ℚ) (rng : RangeQueries) (s : CamValues), 0 ≤ e →
      (applyCameraTestParams e g fps td rng s).exposureAuto = 0 ∧
      (rng.exposureOk = true →
        (applyCameraTestParams e g fps td rng s).exposureTime =
          clampToRange e rng.exposure.fMin rng.exposure.fMax)) ∧
    (∀ (e g fps td : ℚ) (rng : RangeQueries) (s : CamValues), g < 0 →
      (applyCameraTestParams e g fps td rng s).gainAuto = s.gainAuto ∧
      (applyCameraTestParams e g fps td rng s).gain = s.gain) ∧
    (∀ (e g fps td : ℚ) (rng : RangeQueries) (s : CamValues), 0 ≤ g →
      (applyCameraTestParams e g fps td rng s).gainAuto = 0 ∧
      (rng.gainOk = true →
        (applyCameraTestParams e g fps td rng s).gain =
          clampToRange g rng.gain.fMin rng.gain.fMax)) ∧
    (∀ (e g fps td : ℚ) (rng : RangeQueries) (s : CamValues), fps < 0 →
      (applyCameraTestParams e g fps td rng s).frameRateEnable = s.frameRateEnable ∧
      (applyCameraTestParams e g fps td rng s).frameRate = s.frameRate) ∧
    (∀ (e g fps td : ℚ) (rng : RangeQueries) (s : CamValues), 0 ≤ fps →
      (applyCameraTestParams e g fps td rng s).frameRateEnable = true ∧
      (rng.frameRateOk = true →
        (applyCameraTestParams e g fps td rng s).frameRate =
          clampToRange fps rng.frameRate.fMin rng.frameRate.fMax)) ∧
    (∀ (e g fps td : ℚ) (rng : RangeQueries) (s : CamValues), td < 0 →
      (applyCameraTestParams e g fps td rng s).triggerDelay = s.triggerDelay) ∧
    (∀ (e g fps td : ℚ) (rng : RangeQueries) (s : CamValues), 0 ≤ td →
      rng.triggerDelayOk = true →
        (applyCameraTestParams e g fps td rng s).triggerDelay =
          clampToRange td rng.triggerDelay.fMin rng.triggerDelay.fMax) ∧
    (∀ v lo hi : ℚ, lo ≤ hi → lo ≤ clampToRange v lo hi ∧ clampToRange v lo hi ≤ hi) ∧
    (∀ v lo hi : ℚ, lo ≤ v → v ≤ hi → clampToRange v lo hi = v) := by
  refine ⟨?_, ?_, ?_, ?_, ?_, ?_, ?_, ?_, ?_, ?_⟩
  · intro e g fps td rng s he
    exact apply_exposure_neg he
  · intro e g fps td rng s he
    exact apply_exposure_nonneg he
  · intro e g fps td rng s hg
    exact apply_gain_neg hg
  · intro e g fps td rng s hg
    exact apply_gain_nonneg hg
  · intro e g fps td rng s hfps
    exact apply_fps_neg hfps
  · intro e g fps td rng s hfps
    exact apply_fps_nonneg hfps
  · intro e g fps td rng s htd
    exact apply_td_neg htd
  · intro e g fps td rng s htd
    exact apply_td_nonneg htd
  · exact clampToRange_mem
  · exact clampToRange_id

/-- A device report with all four range queries succeeding. -/
def rngDemo : RangeQueries :=
  ⟨true, ⟨100, 1000000⟩, true, ⟨0, 20⟩, true, ⟨1, 100⟩, true, ⟨0, 10000⟩⟩

/-- A camera state with both auto modes engaged. -/
def camDemo : CamValues := ⟨2, 2, false, 5000, 3, 30, 0⟩

/-- Witness for C6: a negative exposure request leaves auto exposure alone,
a nonnegative gain request forces GainAuto = Off, and the clamp facts hold
at concrete values. -/
theorem camera_param_clamp_contract_check :
    ((applyCameraTestParams (-1) 7 500 5 rngDemo camDemo).exposureAuto = camDemo.exposureAuto ∧
      (applyCameraTestParams (-1) 7 500 5 rngDemo camDemo).exposureTime = camDemo.exposureTime) ∧
    (applyCameraTestParams (-1) 7 500 5 rngDemo camDemo).gainAuto = 0 ∧
    ((1:ℚ) ≤ clampToRange 500 1 100 ∧ clampToRange 500 1 100 ≤ 100) ∧
    clampToRange 7 0 20 = 7 :=
  ⟨camera_param_clamp_contract.1 (-1) 7 500 5 rngDemo camDemo (by norm_num),
    (camera_param_clamp_contract.2.2.2.1 (-1) 7 500 5 rngDemo camDemo (by norm_num)).1,
    camera_param_clamp_contract.2.2.2.2.2.2.2.2.1 500 1 100 (by norm_num),
    camera_param_clamp_contract.2.2.2.2.2.2.2.2.2 7 0 20 (by norm_num) (by norm_num)⟩

end CameraTest
